import Mathlib

/-!
Verification of the VideoMixer front-end job-progress tracker and upload
coordinator (src/web/frontend/src/App.vue, components/ProgressPanel.vue,
components/FileUploader.vue), as a shallow embedding in Lean.

The embedding follows the Vue source:
  * `AppState` / `handleMsg` — the `ws.onmessage` dispatch in `connectWs`
    (App.vue): branches for `file_start`, `file_log`, `file_done`,
    `finished`, `cancelled`, `state`, and the implicit no-op for unknown
    message types.
  * `PanelParse` / `scanLine` / `scanWindow` — ProgressPanel.vue's
    `watch(logLines.length)` handler that scans the last 5 log lines for the
    duration announcement (`时长: X秒`) and the ffmpeg time marker
    (`time=HH:MM:SS.ss`), and `videoPercent`.
  * `durParse` / `timeParse` — faithful renderings of the JS regexes
    `/时长:\s*(\d+\.?\d*)秒/` and `/time=(\d+):(\d+):(\d+\.\d+)/` with
    leftmost-match semantics (for these patterns greedy matching without
    backtracking is equivalent to the JS engine's backtracking search).
  * `readDirectoryGrouped`, `catOfRelPath`, `isVideo`, `safeCat`,
    `doUploadTrace` — FileUploader.vue's category inference, sanitization
    and batch-upload loop.
JS numbers are modelled as `ℚ` (all values involved are exact decimals),
JS array indices and counts as `ℕ`, `Math.round` as `jsRound`.
-/

/-- One entry of the `file_results` history: the tracker treats each result
record as opaque data apart from its `filename`/`status` fields. -/
structure Res where
  filename : String
  status : String
  deriving DecidableEq, Repr

/-- The reactive refs of App.vue that the progress WebSocket handler
mutates: `taskStatus`, `completed`, `failed`, `fileResults`, `currentFile`,
`logLines`, `elapsed`. -/
structure AppState where
  taskStatus : String
  completed : Nat
  failed : Nat
  fileResults : List Res
  currentFile : String
  logLines : List String
  elapsed : ℚ
  deriving DecidableEq, Repr

/-- The parsed events of the `/ws/progress/{task_id}` stream, one
constructor per `msg.type` the handler dispatches on; `unknown` stands for
any payload whose `type` matches no branch. -/
inductive Msg where
  | fileStart (filename : String) (completed failed : Nat)
  | fileLog (line : String)
  | fileDone (completed failed : Nat) (result : Res)
  | finished (status : String) (completed failed : Nat) (elapsed : ℚ)
  | cancelled
  | state (status : String) (completed failed : Nat)
      (fileResults : Option (List Res)) (currentFile : String)
  | unknown
  deriving DecidableEq, Repr

/-- The `file_log` branch: `logLines.value = [...logLines.value, msg.line]`;
when the result exceeds 200 lines it is replaced by `slice(-150)`, the most
recent 150 lines. -/
def appendTrim (buf : List String) (line : String) : List String :=
  let l := buf ++ [line]
  if l.length > 200 then l.drop (l.length - 150) else l

/-- The `ws.onmessage` dispatch of App.vue's `connectWs`, one branch per
message type; a payload matching no branch leaves every ref untouched. -/
def handleMsg (s : AppState) (m : Msg) : AppState :=
  match m with
  | .fileStart filename completed failed =>
      { s with currentFile := filename, completed := completed,
               failed := failed, logLines := [] }
  | .fileLog line =>
      { s with logLines := appendTrim s.logLines line }
  | .fileDone completed failed result =>
      { s with completed := completed, failed := failed,
               fileResults := s.fileResults ++ [result] }
  | .finished status completed failed elapsed =>
      { s with taskStatus := status, completed := completed,
               failed := failed, elapsed := elapsed, currentFile := "" }
  | .cancelled =>
      { s with taskStatus := "cancelled", currentFile := "" }
  | .state status completed failed fileResults currentFile =>
      { s with taskStatus := status, completed := completed,
               failed := failed, fileResults := fileResults.getD [],
               currentFile := currentFile }
  | .unknown => s

/-- The state App.vue establishes in `startTask` right before opening the
socket: status "running", zeroed counts, empty history and log. -/
def submitApp : AppState :=
  { taskStatus := "running", completed := 0, failed := 0, fileResults := [],
    currentFile := "", logLines := [], elapsed := 0 }

/- ### ProgressPanel: duration / time parsing -/

/-- Decimal digit test, the JS regex class `\d`. -/
def isDigitChar (c : Char) : Bool := '0' ≤ c && c ≤ '9'

/-- The JS regex class `\s` (and the character set of `String.trim`),
restricted to the whitespace code points that occur in practice. -/
def isJsWs (c : Char) : Bool :=
  c = ' ' || c = '\t' || c = '\n' || c = '\r' || c = '\x0b' || c = '\x0c' ||
  c = '\u00A0' || c = '\u3000' || c = '\uFEFF'

/-- Numeric value of one decimal digit character. -/
def digitVal : Char → Nat
  | '0' => 0 | '1' => 1 | '2' => 2 | '3' => 3 | '4' => 4
  | '5' => 5 | '6' => 6 | '7' => 7 | '8' => 8 | '9' => 9
  | _ => 0

/-- Value of a digit string, as `parseInt` reads it. -/
def natOfDigits (ds : List Char) : Nat :=
  ds.foldl (fun n c => 10 * n + digitVal c) 0

/-- Value of the fractional digit string `ds` after a decimal point, as
`parseFloat` reads it. -/
def fracOfDigits (ds : List Char) : ℚ :=
  (natOfDigits ds : ℚ) / (10 ^ ds.length)

/-- Match a literal character sequence at the head of the input, returning
the rest on success. -/
def dropLit : List Char → List Char → Option (List Char)
  | [], rest => some rest
  | _ :: _, [] => none
  | p :: ps, c :: cs => if c = p then dropLit ps cs else none

/-- Try `/时长:\s*(\d+\.?\d*)秒/` anchored at the head of `l`, returning the
captured number as `parseFloat` would. -/
def durAt (l : List Char) : Option ℚ :=
  match dropLit "时长:".data l with
  | none => none
  | some r1 =>
    let r2 := r1.dropWhile isJsWs
    let ds := r2.takeWhile isDigitChar
    if ds.isEmpty then none
    else
      match r2.drop ds.length with
      | '.' :: r4 =>
        let fs := r4.takeWhile isDigitChar
        match r4.drop fs.length with
        | '秒' :: _ => some ((natOfDigits ds : ℚ) + fracOfDigits fs)
        | _ => none
      | '秒' :: _ => some (natOfDigits ds : ℚ)
      | _ => none

/-- Leftmost search for the duration pattern, as `String.prototype.match`. -/
def durParseL : List Char → Option ℚ
  | [] => none
  | c :: cs =>
    match durAt (c :: cs) with
    | some v => some v
    | none => durParseL cs

/-- `line.match(/时长:\s*(\d+\.?\d*)秒/)` followed by `parseFloat` of the
capture. -/
def durParse (line : String) : Option ℚ := durParseL line.data

/-- Try `/time=(\d+):(\d+):(\d+\.\d+)/` anchored at the head of `l`,
returning `h*3600 + m*60 + s` as the watcher computes it. -/
def timeAt (l : List Char) : Option ℚ :=
  match dropLit "time=".data l with
  | none => none
  | some r1 =>
    let hs := r1.takeWhile isDigitChar
    if hs.isEmpty then none
    else
      match r1.drop hs.length with
      | ':' :: r2 =>
        let ms := r2.takeWhile isDigitChar
        if ms.isEmpty then none
        else
          match r2.drop ms.length with
          | ':' :: r3 =>
            let ss := r3.takeWhile isDigitChar
            if ss.isEmpty then none
            else
              match r3.drop ss.length with
              | '.' :: r4 =>
                let fs := r4.takeWhile isDigitChar
                if fs.isEmpty then none
                else
                  some (3600 * (natOfDigits hs : ℚ) + 60 * natOfDigits ms +
                        natOfDigits ss + fracOfDigits fs)
              | _ => none
          | _ => none
      | _ => none

/-- Leftmost search for the time pattern. -/
def timeParseL : List Char → Option ℚ
  | [] => none
  | c :: cs =>
    match timeAt (c :: cs) with
    | some v => some v
    | none => timeParseL cs

/-- `line.match(/time=(\d+):(\d+):(\d+\.\d+)/)` reduced to seconds. -/
def timeParse (line : String) : Option ℚ := timeParseL line.data

/-- ProgressPanel's per-file parse state: the `videoDuration` and
`currentTime` refs. -/
structure PanelParse where
  videoDuration : ℚ
  currentTime : ℚ
  deriving DecidableEq, Repr

/-- One iteration of the scan loop in `watch(logLines.length)`: set
`videoDuration` from the duration pattern only while it is still 0 (falsy),
and overwrite `currentTime` on every time-pattern match. -/
def scanLine (p : PanelParse) (line : String) : PanelParse :=
  let p1 :=
    if p.videoDuration = 0 then
      match durParse line with
      | some d => { p with videoDuration := d }
      | none => p
    else p
  match timeParse line with
  | some t => { p1 with currentTime := t }
  | none => p1

/-- The window `lines[max(0, length-5) .. length)` the watcher scans. -/
def last5 (lines : List String) : List String :=
  lines.drop (lines.length - 5)

/-- The whole `watch(logLines.length)` handler: scan the last 5 lines of
the buffer in order (a no-op on an empty buffer, matching the early
return). -/
def scanWindow (p : PanelParse) (lines : List String) : PanelParse :=
  (last5 lines).foldl scanLine p

/-- `Math.round`: round half away from zero is `⌊x + 1/2⌋` for the
nonnegative values that occur here. -/
def jsRound (x : ℚ) : ℤ := Int.floor (x + 1 / 2)

/-- ProgressPanel's `videoPercent` computed property. -/
def videoPercent (status currentFile : String) (videoDuration currentTime : ℚ) : ℤ :=
  if status = "completed" ∨ status = "failed" ∨ status = "cancelled" then 100
  else if currentFile = "" then 0
  else if 0 < videoDuration ∧ 0 < currentTime then
    min 99 (jsRound (currentTime / videoDuration * 100))
  else 0

/- ### Combined App + ProgressPanel system -/

/-- App.vue state together with the ProgressPanel parse refs it drives
through props. -/
structure Sys where
  app : AppState
  panel : PanelParse
  deriving DecidableEq, Repr

/-- One message step of the combined system: App's `onmessage` branch, then
ProgressPanel's `watch(currentFile)` reset (fires exactly when the
current-file prop changed) and its `watch(logLines.length)` scan (fires on
`file_log`, the only branch that changes the buffer's length while keeping
a file current). -/
def stepMsg (s : Sys) (m : Msg) : Sys :=
  let a := handleMsg s.app m
  let p0 := if a.currentFile = s.app.currentFile then s.panel else ⟨0, 0⟩
  let p :=
    match m with
    | .fileLog _ => scanWindow p0 a.logLines
    | _ => p0
  ⟨a, p⟩

/-- Fold a message sequence through the combined system. -/
def stepMsgs (s : Sys) (ms : List Msg) : Sys :=
  ms.foldl stepMsg s

/-- `JSON.parse` throws on malformed input before any ref is assigned, so a
message that fails to parse (`none`) leaves the state untouched. -/
def sysHandle (s : Sys) (m : Option Msg) : Sys :=
  match m with
  | none => s
  | some msg => stepMsg s msg

/-- The combined system right after `startTask` resets the refs. -/
def submitSys : Sys := ⟨submitApp, ⟨0, 0⟩⟩

/-- The percent ProgressPanel displays for the combined state. -/
def displayedPercent (s : Sys) : ℤ :=
  videoPercent s.app.taskStatus s.app.currentFile
    s.panel.videoDuration s.panel.currentTime

/- ### FileUploader: category inference, sanitization, batch upload -/

/-- The accepted video extensions (`VIDEO_EXTS`). -/
def VIDEO_EXTS : List String :=
  ["mp4", "mov", "m4v", "avi", "mkv", "webm", "flv", "wmv"]

/-- `String.prototype.split(sep)` for a single-character separator, on the
character list of the string: JS split never returns an empty array and
keeps empty segments. -/
def splitOnChar (sep : Char) : List Char → List (List Char)
  | [] => [[]]
  | c :: cs =>
    match splitOnChar sep cs with
    | [] => [[]]
    | g :: gs => if c = sep then [] :: g :: gs else (c :: g) :: gs

/-- `s.split(sep)` as a list of strings. -/
def jsSplit (sep : Char) (s : String) : List String :=
  (splitOnChar sep s.data).map fun g => ⟨g⟩

/-- `toLowerCase` on one character (ASCII range, which covers the
extension alphabet compared against `VIDEO_EXTS`). -/
def jsCharLower (c : Char) : Char :=
  if 'A' ≤ c && c ≤ 'Z' then Char.ofNat (c.toNat + 32) else c

/-- `String.prototype.toLowerCase`. -/
def jsToLower (s : String) : String :=
  ⟨s.data.map jsCharLower⟩

/-- `isVideo(name)`: the extension is `name.split('.').pop().toLowerCase()`
checked against `VIDEO_EXTS`. -/
def isVideo (name : String) : Bool :=
  match (jsSplit '.' name).getLast? with
  | some ext => VIDEO_EXTS.contains (jsToLower ext)
  | none => false

/-- A dropped filesystem entry, as the `webkitGetAsEntry` tree hands it to
`readDirectoryGrouped` (only one level of subdirectories is read). -/
inductive Entry where
  | file (name : String)
  | dir (name : String) (entries : List Entry)
  deriving Repr

/-- The video files directly inside a list of entries, in order. -/
def directVideos (entries : List Entry) : List String :=
  entries.filterMap fun e =>
    match e with
    | .file n => if isVideo n then some n else none
    | .dir _ _ => none

/-- `readDirectoryGrouped(dirEntry)` for a directory named `name` with
children `entries`: each immediate subdirectory holding videos becomes a
category under the subdirectory's name; files directly inside the dropped
directory are grouped, last, under the dropped directory's own name. -/
def readDirectoryGrouped (name : String) (entries : List Entry) :
    List (String × List String) :=
  let groups := entries.filterMap fun e =>
    match e with
    | .dir dn subs =>
        let subFiles := directVideos subs
        if subFiles.isEmpty then none else some (dn, subFiles)
    | .file _ => none
  let rootFiles := directVideos entries
  if rootFiles.isEmpty then groups else groups ++ [(name, rootFiles)]

/-- Category choice of `onFolderInputChange` for one file's
`webkitRelativePath`: the immediate parent folder when the path has at
least three segments, otherwise the first segment (or the default label
when that is empty). -/
def catOfRelPath (relPath : String) : String :=
  let parts := jsSplit '/' relPath
  if parts.length ≥ 3 then (parts.drop (parts.length - 2)).headD ""
  else
    let first := parts.headD ""
    if first = "" then "默认" else first

/-- `category.replace(/[/\\]/g, '_')`. -/
def sanitizeCat (category : String) : String :=
  ⟨category.data.map fun ch => if ch = '/' ∨ ch = '\\' then '_' else ch⟩

/-- `String.prototype.trim` on the character list of a string. -/
def jsTrim (s : String) : String :=
  ⟨((s.data.dropWhile isJsWs).reverse.dropWhile isJsWs).reverse⟩

/-- `doUpload`'s category sanitization:
`category.replace(/[/\\]/g, '_').trim() || defaultCategory`. -/
def safeCat (category : String) : String :=
  let t := jsTrim (sanitizeCat category)
  if t = "" then "默认" else t

/-- Observable actions of `doUpload`'s body, in program order. -/
inductive UpAction where
  | attempt (name : String)
  | logError (name : String) (err : String)
  | emitCategoriesChanged
  deriving DecidableEq, Repr

/-- `doUpload`'s per-file loop over `uploadSingleFile` (modelled as an
`Except`-returning call): a rejection is caught, logged, and the loop
continues with the next file; after the loop the component emits
`categoriesChanged` exactly once. -/
def doUploadTrace (upload : String → Except String Unit) :
    List String → List UpAction
  | [] => [.emitCategoriesChanged]
  | f :: rest =>
      match upload f with
      | .ok _ => .attempt f :: doUploadTrace upload rest
      | .error e => .attempt f :: .logError f e :: doUploadTrace upload rest

/-- The effect on App.vue's state of a sequence of `file_done` events,
each carrying the payload fields (`completed`, `failed`, `result`). -/
def applyDones (s : AppState) (evs : List (Nat × Nat × Res)) : AppState :=
  evs.foldl (fun st e => handleMsg st (.fileDone e.1 e.2.1 e.2.2)) s

/- ### Helper lemmas -/

theorem appendTrim_length_le (buf : List String) (line : String) :
    (appendTrim buf line).length ≤ 200 := by
  by_cases h : (buf ++ [line]).length > 200
  · simp only [appendTrim, if_pos h, List.length_drop]
    omega
  · simp only [appendTrim, if_neg h]
    omega

theorem foldl_appendTrim_length_le (ls : List String) :
    ∀ init : List String, init.length ≤ 200 →
      (List.foldl appendTrim init ls).length ≤ 200 := by
  induction ls with
  | nil => intro init h; exact h
  | cons l rest ih =>
    intro init _
    rw [List.foldl_cons]
    exact ih _ (appendTrim_length_le init l)

theorem applyDones_go (evs : List (Nat × Nat × Res)) :
    ∀ (s : AppState) (k : Nat), s.completed + s.failed = k →
      s.taskStatus = "running" →
      (∀ i (hi : i < evs.length),
        (evs.get ⟨i, hi⟩).1 + (evs.get ⟨i, hi⟩).2.1 = k + i + 1) →
      (applyDones s evs).completed + (applyDones s evs).failed = k + evs.length ∧
      (applyDones s evs).taskStatus = "running" := by
  induction evs with
  | nil =>
    intro s k hk hst _
    exact ⟨by simpa [applyDones] using hk, by simpa [applyDones] using hst⟩
  | cons e rest ih =>
    intro s k hk hst hcum
    have hstep : applyDones s (e :: rest) =
        applyDones (handleMsg s (.fileDone e.1 e.2.1 e.2.2)) rest := rfl
    have h0 := hcum 0 (by simp)
    have hs1 : (handleMsg s (.fileDone e.1 e.2.1 e.2.2)).completed +
        (handleMsg s (.fileDone e.1 e.2.1 e.2.2)).failed = k + 1 := by
      simpa [handleMsg] using h0
    have hst1 : (handleMsg s (.fileDone e.1 e.2.1 e.2.2)).taskStatus = "running" := by
      simpa [handleMsg] using hst
    have hcum1 : ∀ i (hi : i < rest.length),
        (rest.get ⟨i, hi⟩).1 + (rest.get ⟨i, hi⟩).2.1 = (k + 1) + i + 1 := by
      intro i hi
      have := hcum (i + 1) (by simpa using Nat.succ_lt_succ hi)
      simpa [Nat.add_assoc, Nat.add_comm, Nat.add_left_comm] using this
    have := ih (handleMsg s (.fileDone e.1 e.2.1 e.2.2)) (k + 1) hs1 hst1 hcum1
    rw [hstep]
    exact ⟨by rw [this.1]; simp; omega, this.2⟩

theorem scanLine_duration_keep (p : PanelParse) (line : String)
    (h : p.videoDuration ≠ 0) :
    (scanLine p line).videoDuration = p.videoDuration := by
  simp only [scanLine, if_neg h]
  cases timeParse line <;> rfl

theorem foldl_scan_duration_latch (ws : List String) :
    ∀ p : PanelParse, p.videoDuration ≠ 0 →
      (ws.foldl scanLine p).videoDuration = p.videoDuration := by
  induction ws with
  | nil => intro p _; rfl
  | cons w rest ih =>
    intro p h
    have hstep := scanLine_duration_keep p w h
    rw [List.foldl_cons, ih _ (by rw [hstep]; exact h), hstep]

theorem foldl_scan_time_last (ws : List String) (p : PanelParse) (line : String)
    (tv : ℚ) (h : timeParse line = some tv) :
    ((ws ++ [line]).foldl scanLine p).currentTime = tv := by
  rw [List.foldl_append]
  simp [scanLine, h]

theorem appendTrim_shape (buf : List String) (line : String) :
    ∃ w, appendTrim buf line = w ++ [line] := by
  by_cases h : (buf ++ [line]).length > 200
  · refine ⟨buf.drop ((buf ++ [line]).length - 150), ?_⟩
    simp only [appendTrim, if_pos h]
    exact List.drop_append_of_le_length
      (by simp only [List.length_append, List.length_cons, List.length_nil] at h ⊢; omega)
  · exact ⟨buf, by simp only [appendTrim, if_neg h]⟩

theorem last5_shape (w : List String) (line : String) :
    ∃ w2, last5 (w ++ [line]) = w2 ++ [line] := by
  unfold last5
  refine ⟨w.drop ((w ++ [line]).length - 5), ?_⟩
  rw [List.drop_append_eq_append_drop]
  have h0 : (w ++ [line]).length - 5 - w.length = 0 := by
    simp only [List.length_append, List.length_cons, List.length_nil]
    omega
  rw [h0]
  rfl

/- ### Claim theorems -/

/-- C1 counterexample: the `file_done` branch copies `msg.completed` and
`msg.failed` from the payload instead of incrementing, so a single
`file_done` event (a sequence of length N = 1) whose payload reports
completed = 5, failed = 2 leaves the tracker with completed + failed = 7 ≠ 1
while the status is still "running". -/
theorem fileDone_overwrites_counts_cex :
    (handleMsg submitApp (.fileDone 5 2 ⟨"a.mp4", "done"⟩)).taskStatus = "running" ∧
    ¬ ((handleMsg submitApp (.fileDone 5 2 ⟨"a.mp4", "done"⟩)).completed +
        (handleMsg submitApp (.fileDone 5 2 ⟨"a.mp4", "done"⟩)).failed = 1) := by
  decide

/-- C1 (amended): the `file_done` branch takes the completed/failed counts
from the event payload; hence, starting from the zeroed counts of a job
submission with status "running", after any sequence of N `file_done`
events whose k-th event reports cumulative counts completed + failed = k
(as a backend that increments per finished file emits them), the tracker's
completed + failed equals exactly N and the status remains "running". -/
theorem fileDone_cumulative_counts (s : AppState) (evs : List (Nat × Nat × Res))
    (hst : s.taskStatus = "running") (hc : s.completed = 0) (hf : s.failed = 0)
    (hcum : ∀ i (hi : i < evs.length),
      (evs.get ⟨i, hi⟩).1 + (evs.get ⟨i, hi⟩).2.1 = i + 1) :
    (applyDones s evs).completed + (applyDones s evs).failed = evs.length ∧
    (applyDones s evs).taskStatus = "running" := by
  have h := applyDones_go evs s 0 (by omega) hst
    (by intro i hi; simpa using hcum i hi)
  simpa using h

/-- Witness for `fileDone_cumulative_counts` at a concrete two-event
sequence with cumulative payload counts (1,0) then (1,1). -/
theorem fileDone_cumulative_counts_witness :
    (applyDones submitApp
        [(1, 0, ⟨"a.mp4", "done"⟩), (1, 1, ⟨"b.mp4", "failed"⟩)]).completed +
      (applyDones submitApp
        [(1, 0, ⟨"a.mp4", "done"⟩), (1, 1, ⟨"b.mp4", "failed"⟩)]).failed = 2 ∧
    (applyDones submitApp
        [(1, 0, ⟨"a.mp4", "done"⟩), (1, 1, ⟨"b.mp4", "failed"⟩)]).taskStatus =
      "running" := by
  have h := fileDone_cumulative_counts submitApp
    [(1, 0, ⟨"a.mp4", "done"⟩), (1, 1, ⟨"b.mp4", "failed"⟩)]
    rfl rfl rfl ?_
  · simpa using h
  · intro i hi
    match i with
    | 0 => rfl
    | 1 => rfl
    | n + 2 => exact absurd hi (by simp)

/-- C2 counterexample: with a file still running at parsed duration 10s and
time 5s (percent 50), processing a `file_done` for that file changes
neither the status nor the panel's parse state, so the displayed percent
stays 50 — it does not become 100 upon `file_done`; only a terminal status
yields 100. -/
theorem videoPercent_after_fileDone_cex :
    displayedPercent (stepMsgs submitSys
      [.fileStart "a.mp4" 0 0, .fileLog "时长: 10秒",
       .fileLog "frame= 125 fps= 25 time=00:00:05.00 bitrate= 300kbits/s"]) = 50 ∧
    displayedPercent (stepMsg (stepMsgs submitSys
      [.fileStart "a.mp4" 0 0, .fileLog "时长: 10秒",
       .fileLog "frame= 125 fps= 25 time=00:00:05.00 bitrate= 300kbits/s"])
      (.fileDone 1 0 ⟨"a.mp4", "done"⟩)) = 50 ∧
    ¬ displayedPercent (stepMsg (stepMsgs submitSys
      [.fileStart "a.mp4" 0 0, .fileLog "时长: 10秒",
       .fileLog "frame= 125 fps= 25 time=00:00:05.00 bitrate= 300kbits/s"])
      (.fileDone 1 0 ⟨"a.mp4", "done"⟩)) = 100 := by
  norm_num +decide [displayedPercent, stepMsgs, stepMsg, handleMsg, appendTrim,
    scanWindow, last5, scanLine, durParse, durParseL, durAt, timeParse,
    timeParseL, timeAt, dropLit, isJsWs, isDigitChar, natOfDigits, digitVal,
    fracOfDigits, videoPercent, jsRound, submitSys, submitApp, List.dropWhile,
    List.takeWhile]

/-- C2 (amended): while the job status is "running" and a current file is
set, the displayed percentage is min(99, round(currentTime/duration × 100))
when both a positive duration and a positive time have been parsed and 0
otherwise (in particular 0 when no duration has been parsed), and it is
always < 100; it equals exactly 100 once the job status is terminal
("completed", "failed" or "cancelled") — not already upon a `file_done`
for the file. -/
theorem videoPercent_spec (cf : String) (d t : ℚ) (hcf : cf ≠ "") :
    videoPercent "running" cf d t =
      (if 0 < d ∧ 0 < t then min 99 (jsRound (t / d * 100)) else 0) ∧
    videoPercent "running" cf d t < 100 ∧
    videoPercent "completed" cf d t = 100 ∧
    videoPercent "failed" cf d t = 100 ∧
    videoPercent "cancelled" cf d t = 100 := by
  refine ⟨?_, ?_, ?_, ?_, ?_⟩
  · rw [videoPercent, if_neg (by decide), if_neg hcf]
  · rw [videoPercent, if_neg (by decide), if_neg hcf]
    split
    · exact lt_of_le_of_lt (min_le_left _ _) (by norm_num)
    · norm_num
  · rw [videoPercent, if_pos (by decide)]
  · rw [videoPercent, if_pos (by decide)]
  · rw [videoPercent, if_pos (by decide)]

/-- Witness for `videoPercent_spec` at currentFile "a.mp4", duration 2,
time 1. -/
theorem videoPercent_spec_witness :
    videoPercent "running" "a.mp4" 2 1 =
      (if 0 < (2 : ℚ) ∧ 0 < (1 : ℚ) then min 99 (jsRound (1 / 2 * 100)) else 0) ∧
    videoPercent "running" "a.mp4" 2 1 < 100 ∧
    videoPercent "completed" "a.mp4" 2 1 = 100 ∧
    videoPercent "failed" "a.mp4" 2 1 = 100 ∧
    videoPercent "cancelled" "a.mp4" 2 1 = 100 :=
  videoPercent_spec "a.mp4" 2 1 (by decide)

/-- C3: the `state` resync branch overwrites status, counts, file-result
history and current-file display wholesale from the payload: for the
payload {status:"completed", completed:5, failed:1, file_results: l} with
l of length 6, the resulting counts are exactly 5/1 and the history is
exactly l, regardless of the prior state s. -/
theorem state_resync_overwrites (s : AppState) (l : List Res) (cf : String)
    (hl : l.length = 6) :
    (handleMsg s (.state "completed" 5 1 (some l) cf)).taskStatus = "completed" ∧
    (handleMsg s (.state "completed" 5 1 (some l) cf)).completed = 5 ∧
    (handleMsg s (.state "completed" 5 1 (some l) cf)).failed = 1 ∧
    (handleMsg s (.state "completed" 5 1 (some l) cf)).fileResults = l ∧
    (handleMsg s (.state "completed" 5 1 (some l) cf)).fileResults.length = 6 ∧
    (handleMsg s (.state "completed" 5 1 (some l) cf)).currentFile = cf := by
  simp [handleMsg, hl]

/-- Witness for `state_resync_overwrites`: a prior state with completely
different values and a concrete 6-item history. -/
theorem state_resync_overwrites_witness :
    (handleMsg ⟨"running", 99, 3, [⟨"z.mp4", "done"⟩], "x.mp4", ["log"], 7⟩
        (.state "completed" 5 1 (some [⟨"f1", "done"⟩, ⟨"f2", "done"⟩,
          ⟨"f3", "done"⟩, ⟨"f4", "done"⟩, ⟨"f5", "done"⟩, ⟨"f6", "failed"⟩])
          "")).taskStatus = "completed" ∧
    (handleMsg ⟨"running", 99, 3, [⟨"z.mp4", "done"⟩], "x.mp4", ["log"], 7⟩
        (.state "completed" 5 1 (some [⟨"f1", "done"⟩, ⟨"f2", "done"⟩,
          ⟨"f3", "done"⟩, ⟨"f4", "done"⟩, ⟨"f5", "done"⟩, ⟨"f6", "failed"⟩])
          "")).completed = 5 ∧
    (handleMsg ⟨"running", 99, 3, [⟨"z.mp4", "done"⟩], "x.mp4", ["log"], 7⟩
        (.state "completed" 5 1 (some [⟨"f1", "done"⟩, ⟨"f2", "done"⟩,
          ⟨"f3", "done"⟩, ⟨"f4", "done"⟩, ⟨"f5", "done"⟩, ⟨"f6", "failed"⟩])
          "")).failed = 1 ∧
    (handleMsg ⟨"running", 99, 3, [⟨"z.mp4", "done"⟩], "x.mp4", ["log"], 7⟩
        (.state "completed" 5 1 (some [⟨"f1", "done"⟩, ⟨"f2", "done"⟩,
          ⟨"f3", "done"⟩, ⟨"f4", "done"⟩, ⟨"f5", "done"⟩, ⟨"f6", "failed"⟩])
          "")).fileResults = [⟨"f1", "done"⟩, ⟨"f2", "done"⟩,
          ⟨"f3", "done"⟩, ⟨"f4", "done"⟩, ⟨"f5", "done"⟩, ⟨"f6", "failed"⟩] ∧
    (handleMsg ⟨"running", 99, 3, [⟨"z.mp4", "done"⟩], "x.mp4", ["log"], 7⟩
        (.state "completed" 5 1 (some [⟨"f1", "done"⟩, ⟨"f2", "done"⟩,
          ⟨"f3", "done"⟩, ⟨"f4", "done"⟩, ⟨"f5", "done"⟩, ⟨"f6", "failed"⟩])
          "")).fileResults.length = 6 ∧
    (handleMsg ⟨"running", 99, 3, [⟨"z.mp4", "done"⟩], "x.mp4", ["log"], 7⟩
        (.state "completed" 5 1 (some [⟨"f1", "done"⟩, ⟨"f2", "done"⟩,
          ⟨"f3", "done"⟩, ⟨"f4", "done"⟩, ⟨"f5", "done"⟩, ⟨"f6", "failed"⟩])
          "")).currentFile = "" :=
  state_resync_overwrites _ _ _ rfl

/-- C4: starting from the empty buffer, after any sequence of `file_log`
events the log buffer holds at most 200 lines; and whenever appending a
line makes the buffer exceed 200 lines, the buffer becomes exactly the
most recent 150 lines of the appended sequence, in their original order. -/
theorem log_buffer_cap (ls buf : List String) (line : String)
    (hover : (buf ++ [line]).length > 200) :
    (List.foldl appendTrim [] ls).length ≤ 200 ∧
    appendTrim buf line = (buf ++ [line]).drop ((buf ++ [line]).length - 150) ∧
    (appendTrim buf line).length = 150 := by
  refine ⟨foldl_appendTrim_length_le ls [] (by simp), ?_, ?_⟩
  · simp only [appendTrim, if_pos hover]
  · simp only [appendTrim, if_pos hover, List.length_drop]
    simp only [List.length_append, List.length_cons, List.length_nil] at hover ⊢
    omega

/-- Witness for `log_buffer_cap`: a 200-line buffer receiving one more
line is trimmed to the most recent 150. -/
theorem log_buffer_cap_witness :
    (List.foldl appendTrim [] ["a"]).length ≤ 200 ∧
    appendTrim (List.replicate 200 "x") "y" =
      (List.replicate 200 "x" ++ ["y"]).drop
        ((List.replicate 200 "x" ++ ["y"]).length - 150) ∧
    (appendTrim (List.replicate 200 "x") "y").length = 150 :=
  log_buffer_cap ["a"] (List.replicate 200 "x") "y"
    (by simp only [List.length_append, List.length_replicate, List.length_cons,
      List.length_nil]; omega)

/-- C5: for the log lines "时长: 12.5秒" followed by an ffmpeg progress
line containing "time=00:00:06.25", the duration parser yields 12.5, the
time parser yields 6.25 seconds, and the percentage displayed after
processing the two `file_log` events is round(6.25/12.5×100) = 50. -/
theorem percent_concrete_example :
    durParse "时长: 12.5秒" = some (25 / 2) ∧
    timeParse "frame=  150 fps= 25 q=28.0 size= 256KiB time=00:00:06.25 bitrate= 335.5kbits/s" =
      some (25 / 4) ∧
    displayedPercent (stepMsgs submitSys
      [.fileStart "a.mp4" 0 0,
       .fileLog "时长: 12.5秒",
       .fileLog "frame=  150 fps= 25 q=28.0 size= 256KiB time=00:00:06.25 bitrate= 335.5kbits/s"]) = 50 := by
  norm_num +decide [displayedPercent, stepMsgs, stepMsg, handleMsg, appendTrim,
    scanWindow, last5, scanLine, durParse, durParseL, durAt, timeParse,
    timeParseL, timeAt, dropLit, isJsWs, isDigitChar, natOfDigits, digitVal,
    fracOfDigits, videoPercent, jsRound, submitSys, submitApp, List.dropWhile,
    List.takeWhile]

/-- C6: a malformed message — JSON that fails to parse (`JSON.parse`
throws before any ref is assigned) or a payload whose `type` matches no
branch — leaves the tracker's whole state (status, counts, current file,
file results, log buffer, parse state) unchanged. -/
theorem malformed_msg_noop (s : Sys) :
    sysHandle s none = s ∧ sysHandle s (some .unknown) = s := by
  refine ⟨rfl, ?_⟩
  show stepMsg s .unknown = s
  simp [stepMsg, handleMsg]

/-- C7: category inference assigns each video file to its immediate parent
subfolder, and files directly in the selected root folder to the root
folder's own name — both in the drag-and-drop path (`readDirectoryGrouped`)
and in the `<input webkitdirectory>` fallback (`catOfRelPath` over
`webkitRelativePath`). -/
theorem category_inference_concrete :
    readDirectoryGrouped "videos" [.dir "手写" [.file "a.mp4", .file "b.mp4"]] =
      [("手写", ["a.mp4", "b.mp4"])] ∧
    readDirectoryGrouped "videos" [.file "c.mp4"] = [("videos", ["c.mp4"])] ∧
    catOfRelPath "videos/手写/a.mp4" = "手写" ∧
    catOfRelPath "videos/手写/b.mp4" = "手写" ∧
    catOfRelPath "videos/c.mp4" = "videos" := by
  decide

theorem sanitize_no_sep (c : String) (ch : Char)
    (hch : ch ∈ (sanitizeCat c).data) : ch ≠ '/' ∧ ch ≠ '\\' := by
  simp only [sanitizeCat] at hch
  rcases List.mem_map.1 hch with ⟨a, _, rfl⟩
  by_cases ha : a = '/' ∨ a = '\\'
  · simp only [if_pos ha]
    exact ⟨by decide, by decide⟩
  · simp only [if_neg ha]
    push_neg at ha
    exact ha

theorem jsTrim_mem (s : String) (ch : Char) (h : ch ∈ (jsTrim s).data) :
    ch ∈ s.data := by
  simp only [jsTrim] at h
  rw [List.mem_reverse] at h
  have h2 := (List.dropWhile_sublist isJsWs).subset h
  rw [List.mem_reverse] at h2
  exact (List.dropWhile_sublist isJsWs).subset h2

/-- C8: for every input category name, the name actually used for upload
(`safeCat`) contains no path separator ('/' or '\') and is never empty; a
name that is empty (or whitespace-only) after separator replacement and
trimming falls back to the default label "默认". -/
theorem safeCat_sound (c : String) :
    safeCat c ≠ "" ∧
    (∀ ch, ch ∈ (safeCat c).data → ch ≠ '/' ∧ ch ≠ '\\') ∧
    (jsTrim (sanitizeCat c) = "" → safeCat c = "默认") := by
  by_cases h : jsTrim (sanitizeCat c) = ""
  · refine ⟨?_, ?_, fun _ => ?_⟩
    · simp only [safeCat, if_pos h]
      decide
    · simp only [safeCat, if_pos h]
      decide
    · simp only [safeCat, if_pos h]
  · refine ⟨?_, ?_, fun habs => absurd habs h⟩
    · simp only [safeCat, if_neg h]
      exact h
    · simp only [safeCat, if_neg h]
      intro ch hch
      exact sanitize_no_sep c ch (jsTrim_mem _ ch hch)

/-- Witness for `safeCat_sound`: the whitespace-only input " " falls back
to the default label, which is nonempty and separator-free. -/
theorem safeCat_sound_witness :
    safeCat " " ≠ "" ∧ ('默' ≠ '/' ∧ '默' ≠ '\\') ∧ safeCat " " = "默认" :=
  ⟨(safeCat_sound " ").1,
   (safeCat_sound " ").2.1 '默' (by decide),
   (safeCat_sound " ").2.2 (by decide)⟩

/-- C9: within one upload batch, a failed single-file upload is caught and
does not prevent the remaining files from being attempted, and the
`categoriesChanged` notification is emitted exactly once per batch,
whatever the per-file outcomes. -/
theorem doUpload_batch_resilient (upload : String → Except String Unit)
    (files : List String) :
    (doUploadTrace upload files).count .emitCategoriesChanged = 1 ∧
    ∀ f, f ∈ files → UpAction.attempt f ∈ doUploadTrace upload files := by
  induction files with
  | nil => simp [doUploadTrace]
  | cons g rest ih =>
    cases hup : upload g with
    | ok u =>
      cases u
      refine ⟨?_, ?_⟩
      · simp [doUploadTrace, hup, List.count_cons, ih.1]
      · intro f hf
        rcases List.mem_cons.1 hf with rfl | hf
        · simp [doUploadTrace, hup]
        · simp [doUploadTrace, hup, List.mem_cons, ih.2 f hf]
    | error e =>
      refine ⟨?_, ?_⟩
      · simp [doUploadTrace, hup, List.count_cons, ih.1]
      · intro f hf
        rcases List.mem_cons.1 hf with rfl | hf
        · simp [doUploadTrace, hup]
        · simp [doUploadTrace, hup, List.mem_cons, ih.2 f hf]

/-- Witness for `doUpload_batch_resilient`: in the batch ["a", "bad", "c"]
where "bad" fails, the notification is emitted once and "c" (after the
failure) is still attempted. -/
theorem doUpload_batch_resilient_witness :
    (doUploadTrace (fun f => if f = "bad" then .error "HTTP 500" else .ok ())
        ["a", "bad", "c"]).count .emitCategoriesChanged = 1 ∧
    UpAction.attempt "c" ∈
      doUploadTrace (fun f => if f = "bad" then .error "HTTP 500" else .ok ())
        ["a", "bad", "c"] :=
  ⟨(doUpload_batch_resilient _ ["a", "bad", "c"]).1,
   (doUpload_batch_resilient _ ["a", "bad", "c"]).2 "c" (by decide)⟩

/-- C10: (i) once a nonzero duration has been parsed for the current file,
a further `file_log` event never changes it (the duration latches, since
the scan only assigns it while it is 0); (ii) a `file_log` line matching
the time marker overwrites the current time with the parsed value; (iii) a
`file_start` for a different file resets both duration and time to 0. -/
theorem duration_latch_time_overwrite (s : Sys) (line fn : String)
    (c f : Nat) (tv : ℚ) :
    (s.panel.videoDuration ≠ 0 →
      (stepMsg s (.fileLog line)).panel.videoDuration = s.panel.videoDuration) ∧
    (timeParse line = some tv →
      (stepMsg s (.fileLog line)).panel.currentTime = tv) ∧
    (fn ≠ s.app.currentFile →
      (stepMsg s (.fileStart fn c f)).panel = ⟨0, 0⟩) := by
  refine ⟨?_, ?_, ?_⟩
  · intro hd
    simp only [stepMsg, handleMsg, if_pos rfl, scanWindow]
    exact foldl_scan_duration_latch _ s.panel hd
  · intro ht
    simp only [stepMsg, handleMsg, if_pos rfl, scanWindow]
    obtain ⟨w, hw⟩ := appendTrim_shape s.app.logLines line
    rw [hw]
    obtain ⟨w2, hw2⟩ := last5_shape w line
    rw [hw2]
    exact foldl_scan_time_last w2 s.panel line tv ht
  · intro hfn
    simp only [stepMsg, handleMsg]
    rw [if_neg hfn]

/-- Witness for `duration_latch_time_overwrite`, at a state with duration
10 parsed for "a.mp4", the log line "time=00:00:01.50", and a `file_start`
for the different file "b.mp4". -/
theorem duration_latch_time_overwrite_witness :
    (stepMsg ⟨⟨"running", 0, 0, [], "a.mp4", [], 0⟩, ⟨10, 1⟩⟩
        (.fileLog "time=00:00:01.50")).panel.videoDuration =
      (Sys.mk ⟨"running", 0, 0, [], "a.mp4", [], 0⟩ ⟨10, 1⟩).panel.videoDuration ∧
    (stepMsg ⟨⟨"running", 0, 0, [], "a.mp4", [], 0⟩, ⟨10, 1⟩⟩
        (.fileLog "time=00:00:01.50")).panel.currentTime = 3 / 2 ∧
    (stepMsg ⟨⟨"running", 0, 0, [], "a.mp4", [], 0⟩, ⟨10, 1⟩⟩
        (.fileStart "b.mp4" 0 0)).panel = ⟨0, 0⟩ :=
  ⟨(duration_latch_time_overwrite _ "time=00:00:01.50" "b.mp4" 0 0 (3 / 2)).1
      (by norm_num),
   (duration_latch_time_overwrite _ "time=00:00:01.50" "b.mp4" 0 0 (3 / 2)).2.1
      (by norm_num +decide [timeParse, timeParseL, timeAt, dropLit, isDigitChar,
        natOfDigits, digitVal, fracOfDigits]),
   (duration_latch_time_overwrite _ "time=00:00:01.50" "b.mp4" 0 0 (3 / 2)).2.2
      (by decide)⟩
